import Mathlib

/-!
# Verification of the `MIDIPlayer` playback engine of `src/midi_classifier.py`

Shallow embedding of the `MIDIPlayer` class (lines 14-122 of
`src/midi_classifier.py`) and proofs about its control surface and its
scheduling loop.

Modelling choices:

* Durations, positions and the tempo factor are rationals (`ℚ`); the source
  uses Python floats but no claim here depends on floating-point rounding.
* A decoded performance is a finite list of timed events (`List Msg`), each
  carrying its relative delay (`time`), its kind (note-on / note-off / other)
  and the channel / note / velocity payload.  `mido.MidiFile` streaming and
  real-time sleeping are outside the claims considered.
* The engine state `PlayerState` carries exactly the fields the constructor
  initialises: `current_midi`, `is_playing`, `is_looping`, `loop_start`,
  `loop_end` (`Option` because it starts as Python `None`), `tempo`,
  `current_position`.  The output port always exists, since construction
  exits the program when no port can be opened.
* Each operation returns, besides the new state, the list of messages sent
  to the output port, in order.
* The background thread `_play_thread` is modelled as a fuel-indexed
  function: one unit of fuel is one iteration of its `while self.is_playing`
  loop.  The controller thread is not interleaved, so `is_playing`,
  `is_looping`, `tempo` and the loop bounds stay constant during a pass;
  this matches the source when no concurrent call happens.  The dead guard
  `if not hasattr(msg, 'type'): continue` is dropped: every `mido` message
  has a `type` attribute.
* For error handling, a second family of definitions (`...F`) threads a
  sink behaviour `sendOk : Msg → Bool` telling which `port.send` calls
  raise; a raising send produces no output and aborts at the point the
  source would propagate the exception.
-/

inductive Kind where
  | noteOn
  | noteOff
  | other
deriving DecidableEq

structure Msg where
  time : ℚ
  kind : Kind
  channel : ℕ
  note : ℕ
  velocity : ℕ
deriving DecidableEq

/-- `mido.Message('note_off', note=note, channel=channel)` as built by
`MIDIPlayer.stop`: zero delta time, default velocity 64. -/
def noteOffMsg (channel note : ℕ) : Msg :=
  ⟨0, Kind.noteOff, channel, note, 64⟩

/-- The mutable fields of a `MIDIPlayer` instance (constructor, lines 15-24).
`loop_end` is `Option ℚ` because the constructor sets it to `None`. -/
structure PlayerState where
  current_midi : Option (List Msg)
  is_playing : Bool
  is_looping : Bool
  loop_start : ℚ
  loop_end : Option ℚ
  tempo : ℚ
  current_position : ℚ
deriving DecidableEq

/-- The state right after `__init__` (lines 15-24). -/
def initState : PlayerState :=
  ⟨none, false, false, 0, none, 1, 0⟩

/-- The messages sent by the all-notes-off sweep of `stop` (lines 101-103):
`for channel in range(16): for note in range(128): port.send(note_off)`. -/
def sweepMsgs : List Msg :=
  (List.range 16).flatMap fun channel =>
    (List.range 128).map fun note => noteOffMsg channel note

/-- `MIDIPlayer.stop` (lines 96-103): clear `is_playing`, then send the full
16×128 note-off sweep (the port always exists, see the module docstring). -/
def MIDIPlayer.stop (s : PlayerState) : PlayerState × List Msg :=
  ({ s with is_playing := false }, sweepMsgs)

/-- `sum(msg.time for track in tracks for msg in track)` (lines 42-43), on
the flattened event list of the decoded performance. -/
def totalDuration (events : List Msg) : ℚ :=
  (events.map Msg.time).sum

/-- Result of `load_midi`: the new state, the messages sent (by the inner
`stop`), and whether the load succeeded (`ok = false` models the re-raised
`Exception`). -/
structure LoadResult where
  state : PlayerState
  sent : List Msg
  ok : Bool
deriving DecidableEq

/-- `MIDIPlayer.load_midi` (lines 35-45): `stop()` first, then decode.
`decoded = none` models `mido.MidiFile(filepath)` raising: the assignments
to `current_midi` and `loop_end` never execute and the exception is
re-raised.  On success `current_midi` is replaced and `loop_end` is set to
the summed event times. -/
def MIDIPlayer.load_midi (s : PlayerState) (decoded : Option (List Msg)) : LoadResult :=
  match decoded with
  | some events =>
      ⟨{ (MIDIPlayer.stop s).1 with
           current_midi := some events,
           loop_end := some (totalDuration events) },
       (MIDIPlayer.stop s).2, true⟩
  | none => ⟨(MIDIPlayer.stop s).1, (MIDIPlayer.stop s).2, false⟩

/-- `MIDIPlayer.play` (lines 47-61), up to spawning the thread (the thread
itself is `MIDIPlayer.play_thread` below): no-op without a loaded file;
`stop()` first when already playing; set `is_playing`; overwrite
`current_position` only when `start_pos` is given. -/
def MIDIPlayer.play (s : PlayerState) (start_pos : Option ℚ) : PlayerState × List Msg :=
  match s.current_midi with
  | none => (s, [])
  | some _ =>
      let stopped := if s.is_playing then MIDIPlayer.stop s else (s, [])
      let s1 : PlayerState := { stopped.1 with is_playing := true }
      match start_pos with
      | some p => ({ s1 with current_position := p }, stopped.2)
      | none => (s1, stopped.2)

/-- `MIDIPlayer.set_tempo` (lines 105-107): `max(0.25, min(2.0, tempo))`. -/
def MIDIPlayer.set_tempo (s : PlayerState) (tempo : ℚ) : PlayerState :=
  { s with tempo := max (1/4 : ℚ) (min 2 tempo) }

/-- `MIDIPlayer.set_loop_points` (lines 109-112): stores both bounds
verbatim (`finish` stands for the Python parameter `end`). -/
def MIDIPlayer.set_loop_points (s : PlayerState) (start finish : ℚ) : PlayerState :=
  { s with loop_start := start, loop_end := some finish }

/-- `MIDIPlayer.toggle_loop` (lines 114-116). -/
def MIDIPlayer.toggle_loop (s : PlayerState) : PlayerState :=
  { s with is_looping := !s.is_looping }

/-- `msg.type in ['note_on', 'note_off']` (line 78). -/
def isNote (m : Msg) : Bool :=
  match m.kind with
  | Kind.noteOn => true
  | Kind.noteOff => true
  | Kind.other => false

/-- The messages `port.send` receives for one event: the event itself when
it is a note message, nothing otherwise (lines 78-79). -/
def dispatchOf (m : Msg) : List Msg :=
  if isNote m then [m] else []

/-- The loop-reset test `self.is_looping and self.current_position >=
self.loop_end` (line 82), evaluated after the position update.  With
`is_looping` true and `loop_end` still `None` the source would raise a
`TypeError`; no theorem below reaches that combination. -/
def loopHit (looping : Bool) (lend : Option ℚ) (pos : ℚ) : Bool :=
  looping && (match lend with
    | some le => decide (le ≤ pos)
    | none => false)

/-- Result of one pass of the inner `for msg in ...` loop (lines 67-84):
final `current_position`, the messages sent in order, whether the
loop-reset `break` fired, and the trace of positions observed after each
processed event (the value reached before any reset assignment). -/
structure PassOut where
  pos : ℚ
  sent : List Msg
  reset : Bool
  trace : List ℚ
deriving DecidableEq

/-- One pass of the inner `for` loop of `_play_thread` (lines 67-84) with no
controller interference: for each event, sleep (not modelled), send if it is
a note message, add `msg.time` to the position, and if the loop-reset test
fires set the position to `loop_start` and `break`. -/
def runPass (looping : Bool) (lend : Option ℚ) (ls : ℚ) : List Msg → ℚ → PassOut
  | [], pos => ⟨pos, [], false, []⟩
  | m :: rest, pos =>
      if loopHit looping lend (pos + m.time) then
        ⟨ls, dispatchOf m, true, [pos + m.time]⟩
      else
        ⟨(runPass looping lend ls rest (pos + m.time)).pos,
         dispatchOf m ++ (runPass looping lend ls rest (pos + m.time)).sent,
         (runPass looping lend ls rest (pos + m.time)).reset,
         (pos + m.time) :: (runPass looping lend ls rest (pos + m.time)).trace⟩

/-- The `while self.is_playing:` loop of `_play_thread` (lines 66-87),
fuel-indexed (one fuel unit per iteration; fuel 0 returns the state reached
so far, standing for a still-running loop).  After a full pass, `if not
self.is_looping: break` (lines 86-87). -/
def threadLoop : ℕ → PlayerState → List Msg → PlayerState × List Msg
  | 0, s, _ => (s, [])
  | fuel + 1, s, events =>
      if s.is_playing then
        if s.is_looping then
          ((threadLoop fuel
              { s with current_position :=
                  (runPass s.is_looping s.loop_end s.loop_start events s.current_position).pos }
              events).1,
           (runPass s.is_looping s.loop_end s.loop_start events s.current_position).sent ++
             (threadLoop fuel
               { s with current_position :=
                   (runPass s.is_looping s.loop_end s.loop_start events s.current_position).pos }
               events).2)
        else
          ({ s with current_position :=
               (runPass s.is_looping s.loop_end s.loop_start events s.current_position).pos },
           (runPass s.is_looping s.loop_end s.loop_start events s.current_position).sent)
      else (s, [])

/-- `MIDIPlayer._play_thread` (lines 63-94) with an error-free sink: run the
`while` loop, then the `finally: self.stop()` clause (lines 92-94). -/
def MIDIPlayer.play_thread (fuel : ℕ) (s : PlayerState) (events : List Msg) :
    PlayerState × List Msg :=
  ((MIDIPlayer.stop (threadLoop fuel s events).1).1,
   (threadLoop fuel s events).2 ++ (MIDIPlayer.stop (threadLoop fuel s events).1).2)

/-- Result of one pass under a fallible sink: position, sent messages,
whether the loop-reset fired, and whether `port.send` raised. -/
structure FPassOut where
  pos : ℚ
  sent : List Msg
  reset : Bool
  raised : Bool
deriving DecidableEq

/-- One pass of the inner `for` loop with a fallible sink `sendOk`: a note
message with `sendOk m = false` raises inside `port.send` (line 79), before
the position update, and the exception propagates out of the pass. -/
def runPassF (sendOk : Msg → Bool) (looping : Bool) (lend : Option ℚ) (ls : ℚ) :
    List Msg → ℚ → FPassOut
  | [], pos => ⟨pos, [], false, false⟩
  | m :: rest, pos =>
      if isNote m && !sendOk m then
        ⟨pos, [], false, true⟩
      else if loopHit looping lend (pos + m.time) then
        ⟨ls, dispatchOf m, true, false⟩
      else
        ⟨(runPassF sendOk looping lend ls rest (pos + m.time)).pos,
         dispatchOf m ++ (runPassF sendOk looping lend ls rest (pos + m.time)).sent,
         (runPassF sendOk looping lend ls rest (pos + m.time)).reset,
         (runPassF sendOk looping lend ls rest (pos + m.time)).raised⟩

/-- Sending a list of messages through a fallible sink: the messages sent
before the first failing one, and whether all of them went through.  The
sweep of `stop` (lines 101-103) has no `try` around its `port.send`. -/
def sweepF (sendOk : Msg → Bool) : List Msg → List Msg × Bool
  | [] => ([], true)
  | m :: rest =>
      if sendOk m then
        ((m :: (sweepF sendOk rest).1), (sweepF sendOk rest).2)
      else ([], false)

/-- `MIDIPlayer.stop` under a fallible sink: `is_playing` is cleared first,
then the sweep runs until its first failing send; the `Bool` is `true` when
`stop` returned normally, `false` when a sweep send raised out of it. -/
def MIDIPlayer.stopF (sendOk : Msg → Bool) (s : PlayerState) :
    (PlayerState × List Msg) × Bool :=
  (({ s with is_playing := false }, (sweepF sendOk sweepMsgs).1),
   (sweepF sendOk sweepMsgs).2)

/-- The `while` loop of `_play_thread` under a fallible sink.  The outer
`Bool` is `true` when a dispatch error escaped the loop (to be caught by the
`except` clause, lines 89-91). -/
def threadLoopF (sendOk : Msg → Bool) : ℕ → PlayerState → List Msg →
    (PlayerState × List Msg) × Bool
  | 0, s, _ => ((s, []), false)
  | fuel + 1, s, events =>
      if s.is_playing then
        if (runPassF sendOk s.is_looping s.loop_end s.loop_start events s.current_position).raised then
          (({ s with current_position :=
                (runPassF sendOk s.is_looping s.loop_end s.loop_start events s.current_position).pos },
            (runPassF sendOk s.is_looping s.loop_end s.loop_start events s.current_position).sent),
           true)
        else if s.is_looping then
          (((threadLoopF sendOk fuel
               { s with current_position :=
                   (runPassF sendOk s.is_looping s.loop_end s.loop_start events s.current_position).pos }
               events).1.1,
            (runPassF sendOk s.is_looping s.loop_end s.loop_start events s.current_position).sent ++
              (threadLoopF sendOk fuel
                { s with current_position :=
                    (runPassF sendOk s.is_looping s.loop_end s.loop_start events s.current_position).pos }
                events).1.2),
           (threadLoopF sendOk fuel
             { s with current_position :=
                 (runPassF sendOk s.is_looping s.loop_end s.loop_start events s.current_position).pos }
             events).2)
        else
          (({ s with current_position :=
                (runPassF sendOk s.is_looping s.loop_end s.loop_start events s.current_position).pos },
            (runPassF sendOk s.is_looping s.loop_end s.loop_start events s.current_position).sent),
           false)
      else ((s, []), false)

/-- `MIDIPlayer._play_thread` (lines 63-94) under a fallible sink: run the
`while` loop; on an escaped dispatch error the `except` clause clears
`is_playing` (line 91); the `finally` clause calls `stop()` (line 94), whose
sweep sends are NOT guarded, so a sweep failure raises out of the thread.
The outer `Bool` is `true` exactly when the cleanup path itself raised. -/
def MIDIPlayer.play_threadF (sendOk : Msg → Bool) (fuel : ℕ) (s : PlayerState)
    (events : List Msg) : (PlayerState × List Msg) × Bool :=
  ((( MIDIPlayer.stopF sendOk
        (if (threadLoopF sendOk fuel s events).2 then
          { (threadLoopF sendOk fuel s events).1.1 with is_playing := false }
         else (threadLoopF sendOk fuel s events).1.1)).1.1,
    (threadLoopF sendOk fuel s events).1.2 ++
      (MIDIPlayer.stopF sendOk
        (if (threadLoopF sendOk fuel s events).2 then
          { (threadLoopF sendOk fuel s events).1.1 with is_playing := false }
         else (threadLoopF sendOk fuel s events).1.1)).1.2),
   !(MIDIPlayer.stopF sendOk
       (if (threadLoopF sendOk fuel s events).2 then
         { (threadLoopF sendOk fuel s events).1.1 with is_playing := false }
        else (threadLoopF sendOk fuel s events).1.1)).2)

/-- A sink whose every send raises (e.g. the device was disconnected). -/
def failSink : Msg → Bool := fun _ => false

/-- A concrete note-on event with zero delay. -/
def mOn : Msg := ⟨0, Kind.noteOn, 0, 60, 100⟩

/-- A concrete note-on event with delay 2. -/
def mOn2 : Msg := ⟨2, Kind.noteOn, 0, 62, 100⟩

/-- A state mid-playback of the one-event performance `[mOn]`. -/
def sPlay : PlayerState :=
  { initState with current_midi := some [mOn], is_playing := true }

/-- A state mid-playback of `[mOn2]`. -/
def sOne : PlayerState :=
  { initState with current_midi := some [mOn2], is_playing := true }

/-- A looping state over `[mOn2]` with loop region `[0, 1)`. -/
def sLoop : PlayerState :=
  { initState with current_midi := some [mOn2], is_playing := true,
                   is_looping := true, loop_end := some 1 }

/-- A state whose playback position is 5. -/
def s5 : PlayerState := { initState with current_position := 5 }

/-- A one-event performance of total duration 10. -/
def perfTen : List Msg := [⟨10, Kind.other, 0, 0, 0⟩]

/-- Claim C1: every `stop()` call, from any prior state, sends a note-off
for every channel in `0..15` and note in `0..127`. -/
theorem claim_C1 (s : PlayerState) (channel note : ℕ)
    (hc : channel < 16) (hn : note < 128) :
    noteOffMsg channel note ∈ (MIDIPlayer.stop s).2 := by
  simp only [MIDIPlayer.stop, sweepMsgs, List.mem_flatMap, List.mem_map, List.mem_range]
  exact ⟨channel, hc, note, hn, rfl⟩

/-- Witness for C1 at channel 3, note 60, from the initial state. -/
theorem claim_C1_witness :
    3 < 16 ∧ 60 < 128 ∧ noteOffMsg 3 60 ∈ (MIDIPlayer.stop initState).2 :=
  ⟨by norm_num, by norm_num, claim_C1 initState 3 60 (by norm_num) (by norm_num)⟩

/-- Claim C5: `set_tempo t` stores exactly `max 0.25 (min 2 t)`, hence the
stored tempo is always in `[0.25, 2]`. -/
theorem claim_C5 (s : PlayerState) (t : ℚ) :
    (MIDIPlayer.set_tempo s t).tempo = max (1/4 : ℚ) (min 2 t) ∧
    (1/4 : ℚ) ≤ (MIDIPlayer.set_tempo s t).tempo ∧
    (MIDIPlayer.set_tempo s t).tempo ≤ 2 :=
  ⟨rfl, le_max_left _ _, max_le (by norm_num) (min_le_left _ _)⟩

/-- Counterexample to C3 as stated: a successful `load_midi` from a state
with position 5 leaves the position at 5, not 0 — `load_midi` never writes
`current_position`. -/
theorem claim_C3_counterexample :
    (MIDIPlayer.load_midi s5 (some [])).ok = true ∧
    (MIDIPlayer.load_midi s5 (some [])).state.current_position ≠ 0 := by
  exact ⟨rfl, by decide⟩

/-- Claim C3 (amended): a load, successful or not, leaves the playback
position unchanged; it is not reset to 0. -/
theorem claim_C3 (s : PlayerState) (decoded : Option (List Msg)) :
    (MIDIPlayer.load_midi s decoded).state.current_position = s.current_position := by
  cases decoded <;> rfl

/-- Counterexample to C4 as stated: after `set_loop_points 1 2`, loading a
performance of total duration 10 overwrites `loop_end` with 10 instead of
keeping the overridden value 2. -/
theorem claim_C4_counterexample :
    (MIDIPlayer.load_midi (MIDIPlayer.set_loop_points initState 1 2) (some perfTen)).ok = true ∧
    (MIDIPlayer.load_midi (MIDIPlayer.set_loop_points initState 1 2) (some perfTen)).state.loop_end
      = some 10 ∧
    (MIDIPlayer.load_midi (MIDIPlayer.set_loop_points initState 1 2) (some perfTen)).state.loop_end
      ≠ some 2 := by
  refine ⟨rfl, ?_, ?_⟩ <;>
    norm_num [MIDIPlayer.load_midi, MIDIPlayer.set_loop_points, MIDIPlayer.stop,
      totalDuration, perfTen]

/-- Claim C4 (amended): every successful load sets `loop_end` to the
performance's total duration, unconditionally overwriting any value a prior
`set_loop_points` stored. -/
theorem claim_C4 (s : PlayerState) (events : List Msg) :
    (MIDIPlayer.load_midi s (some events)).state.loop_end = some (totalDuration events) :=
  rfl

/-- Claim C9: a failed load reports failure, keeps the previously loaded
performance current, and changes no field beyond what the preceding
`stop()` changed (the resulting state is exactly the post-stop state). -/
theorem claim_C9 (s : PlayerState) :
    (MIDIPlayer.load_midi s none).ok = false ∧
    (MIDIPlayer.load_midi s none).state = (MIDIPlayer.stop s).1 ∧
    (MIDIPlayer.load_midi s none).state.current_midi = s.current_midi ∧
    (MIDIPlayer.load_midi s none).state.loop_end = s.loop_end ∧
    (MIDIPlayer.load_midi s none).state.loop_start = s.loop_start ∧
    (MIDIPlayer.load_midi s none).state.tempo = s.tempo ∧
    (MIDIPlayer.load_midi s none).state.is_looping = s.is_looping ∧
    (MIDIPlayer.load_midi s none).state.current_position = s.current_position :=
  ⟨rfl, rfl, rfl, rfl, rfl, rfl, rfl, rfl⟩

/-- Claim C10: `stop()` changes only `is_playing` — tempo, looping flag,
loop bounds, position and the loaded performance are untouched — so a
subsequent `play()` without a start position resumes from the stopped
position. -/
theorem claim_C10 (s : PlayerState) :
    (MIDIPlayer.stop s).1.tempo = s.tempo ∧
    (MIDIPlayer.stop s).1.is_looping = s.is_looping ∧
    (MIDIPlayer.stop s).1.loop_start = s.loop_start ∧
    (MIDIPlayer.stop s).1.loop_end = s.loop_end ∧
    (MIDIPlayer.stop s).1.current_position = s.current_position ∧
    (MIDIPlayer.stop s).1.current_midi = s.current_midi ∧
    (MIDIPlayer.stop s).1.is_playing = false ∧
    (MIDIPlayer.play (MIDIPlayer.stop s).1 none).1.current_position = s.current_position := by
  refine ⟨rfl, rfl, rfl, rfl, rfl, rfl, rfl, ?_⟩
  rcases h : s.current_midi with _ | events <;>
    simp [MIDIPlayer.play, MIDIPlayer.stop, h]

/-- Appending a dispatch result is a conditional cons. -/
theorem dispatchOf_append (m : Msg) (l : List Msg) :
    dispatchOf m ++ l = if isNote m then m :: l else l := by
  unfold dispatchOf
  by_cases h : isNote m <;> simp [h]

/-- The messages a pass sends are exactly the note messages of the prefix of
events it processed, in order. -/
theorem runPass_sent_filter (looping : Bool) (lend : Option ℚ) (ls : ℚ) :
    ∀ (events : List Msg) (pos : ℚ),
      ∃ k, (runPass looping lend ls events pos).sent = (events.take k).filter isNote
  | [], _ => ⟨0, rfl⟩
  | m :: rest, pos => by
      by_cases h : loopHit looping lend (pos + m.time) = true
      · refine ⟨1, ?_⟩
        simp [runPass, h, dispatchOf, List.filter_cons]
      · obtain ⟨k, hk⟩ := runPass_sent_filter looping lend ls rest (pos + m.time)
        refine ⟨k + 1, ?_⟩
        simp [runPass, h, hk, dispatchOf_append, List.take_succ_cons, List.filter_cons]

/-- A pass with looping disabled processes every event: it sends exactly the
note messages, advances the position by the total duration, and never
resets. -/
theorem runPass_noLoop (lend : Option ℚ) (ls : ℚ) :
    ∀ (events : List Msg) (pos : ℚ),
      (runPass false lend ls events pos).sent = events.filter isNote ∧
      (runPass false lend ls events pos).pos = pos + totalDuration events ∧
      (runPass false lend ls events pos).reset = false
  | [], pos => by simp [runPass, totalDuration]
  | m :: rest, pos => by
      obtain ⟨h1, h2, h3⟩ := runPass_noLoop lend ls rest (pos + m.time)
      have hl : loopHit false lend (pos + m.time) = false := by simp [loopHit]
      refine ⟨?_, ?_, ?_⟩
      · simp [runPass, hl, h1, dispatchOf_append, List.filter_cons]
      · simp only [runPass, hl, if_false, Bool.false_eq_true, h2, totalDuration, List.map_cons,
          List.sum_cons]
        ring
      · simp [runPass, hl, h3]

/-- Claim C7: within a pass, an event is forwarded to the sink iff it is a
note-on or note-off, with no reordering (the sent list is the note filter of
the processed prefix); a full pass (looping disabled) sends exactly the note
events of the whole sequence and advances the position by every event's
delay, note events and other events alike. -/
theorem claim_C7 (looping : Bool) (lend : Option ℚ) (ls pos : ℚ) (events : List Msg) :
    (∃ k, (runPass looping lend ls events pos).sent = (events.take k).filter isNote) ∧
    (runPass false lend ls events pos).sent = events.filter isNote ∧
    (runPass false lend ls events pos).pos = pos + totalDuration events :=
  ⟨runPass_sent_filter looping lend ls events pos,
   (runPass_noLoop lend ls events pos).1,
   (runPass_noLoop lend ls events pos).2.1⟩

/-- Within one pass the observed positions form a non-decreasing chain,
provided every event delay is non-negative. -/
theorem runPass_trace_chain (looping : Bool) (lend : Option ℚ) (ls : ℚ) :
    ∀ (events : List Msg) (pos : ℚ), (∀ m ∈ events, 0 ≤ m.time) →
      List.Chain (· ≤ ·) pos (runPass looping lend ls events pos).trace
  | [], pos, _ => by simp [runPass]
  | m :: rest, pos, hd => by
      have h0 : 0 ≤ m.time := hd m (List.mem_cons_self m rest)
      have hstep : pos ≤ pos + m.time := le_add_of_nonneg_right h0
      by_cases h : loopHit looping lend (pos + m.time) = true
      · simp [runPass, h, hstep]
      · have ih := runPass_trace_chain looping lend ls rest (pos + m.time)
          (fun x hx => hd x (List.mem_cons_of_mem m hx))
        simp [runPass, h, hstep, ih]

/-- If a pass fired the loop reset, its final position is exactly
`loop_start`. -/
theorem runPass_reset_pos (looping : Bool) (lend : Option ℚ) (ls : ℚ) :
    ∀ (events : List Msg) (pos : ℚ),
      (runPass looping lend ls events pos).reset = true →
      (runPass looping lend ls events pos).pos = ls
  | [], pos => by simp [runPass]
  | m :: rest, pos => by
      by_cases h : loopHit looping lend (pos + m.time) = true
      · simp [runPass, h]
      · have ih := runPass_reset_pos looping lend ls rest (pos + m.time)
        simp [runPass, h]
        exact ih

/-- If a looping pass did not fire the reset, every observed position stayed
strictly below `loop_end`: the reset fires exactly when the position reaches
or exceeds `loop_end`. -/
theorem runPass_noReset_lt (le ls : ℚ) :
    ∀ (events : List Msg) (pos : ℚ),
      (runPass true (some le) ls events pos).reset = false →
      ∀ q ∈ (runPass true (some le) ls events pos).trace, q < le
  | [], pos => by simp [runPass]
  | m :: rest, pos => by
      by_cases h : loopHit true (some le) (pos + m.time) = true
      · simp [runPass, h]
      · have hlt : pos + m.time < le := by
          have := h
          simp [loopHit] at this
          exact this
        have ih := runPass_noReset_lt le ls rest (pos + m.time)
        intro hres q hq
        simp [runPass, h] at hres hq
        rcases hq with hq | hq
        · exact hq ▸ hlt
        · exact ih hres q hq

/-- Unfolding one iteration of the `while` loop in a looping state: the next
pass runs over the full event list from index 0, starting at the position
the previous pass left (i.e. `loop_start` after a reset). -/
theorem threadLoop_restart (s : PlayerState) (events : List Msg) (fuel : ℕ)
    (hp : s.is_playing = true) (hl : s.is_looping = true) :
    threadLoop (fuel + 1) s events =
      ((threadLoop fuel
          { s with current_position :=
              (runPass s.is_looping s.loop_end s.loop_start events s.current_position).pos }
          events).1,
       (runPass s.is_looping s.loop_end s.loop_start events s.current_position).sent ++
         (threadLoop fuel
           { s with current_position :=
               (runPass s.is_looping s.loop_end s.loop_start events s.current_position).pos }
           events).2) := by
  simp [threadLoop, hp, hl]

/-- Claim C6: with looping enabled and non-negative delays, within one pass
the position is monotonically non-decreasing; a reset sets it exactly to
`loop_start`; the reset fires exactly when the position reaches or exceeds
`loop_end` (no reset means every observed position stayed below it); and the
next `while` iteration replays the full event sequence from index 0 at the
position the pass ended with. -/
theorem claim_C6 (s : PlayerState) (le : ℚ) (events : List Msg) (fuel : ℕ)
    (hp : s.is_playing = true) (hl : s.is_looping = true) (hle : s.loop_end = some le)
    (hd : ∀ m ∈ events, 0 ≤ m.time) :
    List.Chain (· ≤ ·) s.current_position
      (runPass true (some le) s.loop_start events s.current_position).trace ∧
    ((runPass true (some le) s.loop_start events s.current_position).reset = true →
      (runPass true (some le) s.loop_start events s.current_position).pos = s.loop_start) ∧
    ((runPass true (some le) s.loop_start events s.current_position).reset = false →
      ∀ q ∈ (runPass true (some le) s.loop_start events s.current_position).trace, q < le) ∧
    threadLoop (fuel + 1) s events =
      ((threadLoop fuel
          { s with current_position :=
              (runPass true (some le) s.loop_start events s.current_position).pos }
          events).1,
       (runPass true (some le) s.loop_start events s.current_position).sent ++
         (threadLoop fuel
           { s with current_position :=
               (runPass true (some le) s.loop_start events s.current_position).pos }
           events).2) := by
  refine ⟨runPass_trace_chain true (some le) s.loop_start events s.current_position hd,
         runPass_reset_pos true (some le) s.loop_start events s.current_position,
         runPass_noReset_lt le s.loop_start events s.current_position,
         ?_⟩
  have h4 := threadLoop_restart s events fuel hp hl
  rw [hl, hle] at h4
  rw [hl, hle]
  exact h4

/-- Witness for C6: the looping state `sLoop` playing the one-event list
`[mOn2]` (delay 2, loop region `[0, 1)`), one unit of fuel. -/
theorem claim_C6_witness :
    List.Chain (· ≤ ·) sLoop.current_position
      (runPass true (some 1) sLoop.loop_start [mOn2] sLoop.current_position).trace ∧
    ((runPass true (some 1) sLoop.loop_start [mOn2] sLoop.current_position).reset = true →
      (runPass true (some 1) sLoop.loop_start [mOn2] sLoop.current_position).pos
        = sLoop.loop_start) ∧
    ((runPass true (some 1) sLoop.loop_start [mOn2] sLoop.current_position).reset = false →
      ∀ q ∈ (runPass true (some 1) sLoop.loop_start [mOn2] sLoop.current_position).trace,
        q < 1) ∧
    threadLoop 1 sLoop [mOn2] =
      ((threadLoop 0
          { sLoop with current_position :=
              (runPass true (some 1) sLoop.loop_start [mOn2] sLoop.current_position).pos }
          [mOn2]).1,
       (runPass true (some 1) sLoop.loop_start [mOn2] sLoop.current_position).sent ++
         (threadLoop 0
           { sLoop with current_position :=
               (runPass true (some 1) sLoop.loop_start [mOn2] sLoop.current_position).pos }
           [mOn2]).2) :=
  claim_C6 sLoop 1 [mOn2] 0 rfl rfl rfl (by
    intro m hm
    simp [mOn2] at hm
    simp [hm, mOn2])

/-- Claim C8: from a playing, non-looping state, the thread terminates after
exactly one pass (the outcome does not depend on the remaining fuel): the
final position is the pass's final position, the output is the pass's sent
messages followed by the cleanup sweep of the `finally` `stop()`, and
`is_playing` is false afterwards. -/
theorem claim_C8 (s : PlayerState) (events : List Msg) (fuel : ℕ)
    (hp : s.is_playing = true) (hl : s.is_looping = false) :
    MIDIPlayer.play_thread (fuel + 1) s events =
      ({ s with
           current_position :=
             (runPass false s.loop_end s.loop_start events s.current_position).pos,
           is_playing := false },
       (runPass false s.loop_end s.loop_start events s.current_position).sent ++ sweepMsgs) ∧
    (MIDIPlayer.play_thread (fuel + 1) s events).1.is_playing = false := by
  have h1 : threadLoop (fuel + 1) s events =
      ({ s with current_position :=
           (runPass false s.loop_end s.loop_start events s.current_position).pos },
       (runPass false s.loop_end s.loop_start events s.current_position).sent) := by
    simp [threadLoop, hp, hl]
  constructor
  · simp [MIDIPlayer.play_thread, h1, MIDIPlayer.stop]
  · simp [MIDIPlayer.play_thread, MIDIPlayer.stop]

/-- Witness for C8: the playing, non-looping state `sOne` over `[mOn2]`. -/
theorem claim_C8_witness :
    MIDIPlayer.play_thread 1 sOne [mOn2] =
      ({ sOne with
           current_position :=
             (runPass false sOne.loop_end sOne.loop_start [mOn2] sOne.current_position).pos,
           is_playing := false },
       (runPass false sOne.loop_end sOne.loop_start [mOn2] sOne.current_position).sent ++
         sweepMsgs) ∧
    (MIDIPlayer.play_thread 1 sOne [mOn2]).1.is_playing = false :=
  claim_C8 sOne [mOn2] 0 rfl rfl

/-- Claim C2 (amended): when a sink error escapes the dispatch of a pass,
the thread terminates regardless of remaining fuel; the `except` clause and
the `finally` `stop()` leave `is_playing` false; the notes-off sweep still
runs (its successfully sent prefix follows the pass's output); but a sink
error during the sweep itself propagates out of the cleanup — the outer
flag is `true` exactly when some sweep send failed. -/
theorem claim_C2 (sendOk : Msg → Bool) (s : PlayerState) (events : List Msg) (fuel : ℕ)
    (hp : s.is_playing = true)
    (hr : (runPassF sendOk s.is_looping s.loop_end s.loop_start events s.current_position).raised
            = true) :
    MIDIPlayer.play_threadF sendOk (fuel + 1) s events =
      (({ s with
            current_position :=
              (runPassF sendOk s.is_looping s.loop_end s.loop_start events
                s.current_position).pos,
            is_playing := false },
        (runPassF sendOk s.is_looping s.loop_end s.loop_start events
            s.current_position).sent ++ (sweepF sendOk sweepMsgs).1),
       !(sweepF sendOk sweepMsgs).2) ∧
    (MIDIPlayer.play_threadF sendOk (fuel + 1) s events).1.1.is_playing = false := by
  have h1 : threadLoopF sendOk (fuel + 1) s events =
      (({ s with current_position :=
            (runPassF sendOk s.is_looping s.loop_end s.loop_start events
              s.current_position).pos },
        (runPassF sendOk s.is_looping s.loop_end s.loop_start events
          s.current_position).sent),
       true) := by
    simp [threadLoopF, hp, hr]
  constructor
  · simp [MIDIPlayer.play_threadF, h1, MIDIPlayer.stopF]
  · simp [MIDIPlayer.play_threadF, MIDIPlayer.stopF]

/-- Counterexample to C2 as stated: with a disconnected sink (`failSink`,
every send raises), a dispatch error occurs on the first event, and the
cleanup sweep's own first send then raises out of `stop()` — the cleanup
path itself raises, so sweep errors are NOT swallowed. -/
theorem claim_C2_counterexample :
    (MIDIPlayer.play_threadF failSink 1 sPlay [mOn]).2 = true := by decide

/-- Witness for C2 (amended) at the concrete failing sink and one-event
performance. -/
theorem claim_C2_witness :
    MIDIPlayer.play_threadF failSink 1 sPlay [mOn] =
      (({ sPlay with
            current_position :=
              (runPassF failSink sPlay.is_looping sPlay.loop_end sPlay.loop_start [mOn]
                sPlay.current_position).pos,
            is_playing := false },
        (runPassF failSink sPlay.is_looping sPlay.loop_end sPlay.loop_start [mOn]
            sPlay.current_position).sent ++ (sweepF failSink sweepMsgs).1),
       !(sweepF failSink sweepMsgs).2) ∧
    (MIDIPlayer.play_threadF failSink 1 sPlay [mOn]).1.1.is_playing = false :=
  claim_C2 failSink sPlay [mOn] 0 rfl (by decide)
